import Mathlib

/-!
Shallow embedding of the game-session logic of the obscurity-game repository:
the Flask routes start_game, game, navigate and reset_game of src/app.py, and
the functions validate_wikipedia_url and get_hyperlinks_from_page of
src/game.py.

Modelling conventions:
  - Python strings are lists of characters (Str below).
  - The game_state dict of the Flask session is the GameState structure; the
    session store of one browser is an Option GameState (none = no key).
  - Every MediaWiki / Wikimedia network call is an oracle parameter,
    gathered in the Directory structure.  The pagination loop of
    get_hyperlinks_from_page and the retry loop of get_random_wikipedia_page
    are collapsed into one oracle answer; everything the controller computes
    locally (regex matching, percent decoding, int parsing, bounds checks,
    state updates) is embedded from the source.
  - The Python functions int() and str.strip() are modelled for ASCII inputs
    (Unicode digits and exotic whitespace are out of scope), and
    urllib.parse.unquote is byte-accurate for ASCII percent-escapes.
-/

namespace ObscurityGame

/-- Python strings, modelled as lists of characters. -/
abbrev Str := List Char

/-- The game_state dict stored in the Flask session by src/app.py:
current_page, clicks_used, max_clicks, path, start_page. -/
structure GameState where
  current_page : Str
  clicks_used : Int
  max_clicks : Int
  path : List Str
  start_page : Str
deriving DecidableEq

/-- Outcome of the MediaWiki links query for one page, as consumed by
get_hyperlinks_from_page (src/game.py): the page may carry a missing key,
the request may raise (network error or malformed JSON), or the raw link
titles are returned.  The paginated while-loop is collapsed into one
single oracle answer. -/
inductive LinksResponse where
  | missing : LinksResponse
  | failure : LinksResponse
  | links : List Str → LinksResponse
deriving DecidableEq

/-- Oracle bundle for the network calls of src/game.py.  norm is the
MediaWiki query step of validate_wikipedia_url: it answers the
API-normalized title when the queried title exists in the main namespace
(ns = 0, no missing key), and none otherwise — also none when the request
raises.  random is the overall outcome of get_random_wikipedia_page. -/
structure Directory where
  norm : Str → Option Str
  random : Option Str
  fetchLinks : Str → LinksResponse
  pageviews : Str → Option Int
  extract : Str → Str
  categories : Str → List Str

/-- Value of a single hexadecimal digit character, as used by
urllib.parse.unquote when decoding a percent escape. -/
def hexDigitVal (c : Char) : Option Nat :=
  if 48 ≤ c.toNat ∧ c.toNat ≤ 57 then some (c.toNat - 48)
  else if 97 ≤ c.toNat ∧ c.toNat ≤ 102 then some (c.toNat - 87)
  else if 65 ≤ c.toNat ∧ c.toNat ≤ 70 then some (c.toNat - 55)
  else none

/-- Percent-decoding, modelling urllib.parse.unquote as called by
validate_wikipedia_url.  A valid escape becomes the character of its
code; an invalid escape keeps the percent sign and scanning resumes at
the next character (Python behaviour).  Byte-accurate for ASCII. -/
def unquote : Str → Str
  | [] => []
  | '%' :: a :: b :: rest =>
    match hexDigitVal a, hexDigitVal b with
    | some ha, some hb => Char.ofNat (16 * ha + hb) :: unquote rest
    | _, _ => '%' :: unquote (a :: b :: rest)
  | c :: rest => c :: unquote rest
termination_by s => s.length
decreasing_by all_goals (simp only [List.length_cons]; omega)

/-- The replace of underscores by spaces applied to the decoded title in
validate_wikipedia_url. -/
def underscoresToSpaces (s : Str) : Str :=
  s.map (fun c => if c = '_' then ' ' else c)

/-- Characters of https followed by colon-slash-slash. -/
def schemeHttps : Str := ['h', 't', 't', 'p', 's', ':', '/', '/']

/-- Characters of http followed by colon-slash-slash. -/
def schemeHttp : Str := ['h', 't', 't', 'p', ':', '/', '/']

/-- Characters of the host-and-path part en.wikipedia.org/wiki/. -/
def hostEn : Str :=
  ['e', 'n', '.', 'w', 'i', 'k', 'i', 'p', 'e', 'd', 'i', 'a', '.',
   'o', 'r', 'g', '/', 'w', 'i', 'k', 'i', '/']

/-- Characters of the host-and-path part wikipedia.org/wiki/. -/
def hostPlain : Str :=
  ['w', 'i', 'k', 'i', 'p', 'e', 'd', 'i', 'a', '.',
   'o', 'r', 'g', '/', 'w', 'i', 'k', 'i', '/']

/-- The six concrete string prefixes matched by the four anchored regex
patterns of validate_wikipedia_url (the optional s of https? expands each
scheme pattern into two).  On any one input string at most one of these
prefixes can match, so the pattern loop of the source reduces to trying
them in order. -/
def wikiPrefixes : List Str :=
  [schemeHttps ++ hostEn, schemeHttp ++ hostEn,
   schemeHttps ++ hostPlain, schemeHttp ++ hostPlain,
   hostEn, hostPlain]

/-- Drops p from the front of s when p is literally a prefix of s. -/
def dropPrefixQ : Str → Str → Option Str
  | [], s => some s
  | _ :: _, [] => none
  | p :: ps, c :: cs => if p = c then dropPrefixQ ps cs else none

/-- First prefix of the list that matches, returning the remainder. -/
def firstDrop : List Str → Str → Option Str
  | [], _ => none
  | p :: ps, url =>
    match dropPrefixQ p url with
    | some rest => some rest
    | none => firstDrop ps url

/-- Regex part of validate_wikipedia_url: anchored match of one of the
Wikipedia URL patterns, capturing the greedy nonempty group of characters
other than the hash sign and the question mark. -/
def extractRawTitle (url : Str) : Option Str :=
  match firstDrop wikiPrefixes url with
  | none => none
  | some rest =>
    let g := rest.takeWhile (fun c => decide (c ≠ '#' ∧ c ≠ '?'))
    if g.isEmpty then none else some g

/-- Embedding of validate_wikipedia_url (src/game.py): match the URL
against the patterns, percent-decode the captured group, turn underscores
into spaces, then ask the MediaWiki API (the norm oracle) whether the page
exists in the main namespace, answering its normalized title. -/
def validate_wikipedia_url (norm : Str → Option Str) (url : Str) : Option Str :=
  match extractRawTitle url with
  | none => none
  | some raw => norm (underscoresToSpaces (unquote raw))

/-- Embedding of get_hyperlinks_from_page (src/game.py): empty titles are
filtered out, the collection loop stops at max_links = 100000000 titles,
and both a missing page and a raised exception produce the empty list. -/
def get_hyperlinks_from_page (fetchLinks : Str → LinksResponse)
    (page_title : Str) : List Str :=
  match fetchLinks page_title with
  | .links ls => (ls.filter (fun t => !t.isEmpty)).take 100000000
  | .missing => []
  | .failure => []

/-- Python str.strip() for the ASCII whitespace characters. -/
def pyStrip (s : Str) : Str :=
  ((s.dropWhile Char.isWhitespace).reverse.dropWhile Char.isWhitespace).reverse

/-- Value of one decimal digit character. -/
def digitVal (c : Char) : Option Nat :=
  if 48 ≤ c.toNat ∧ c.toNat ≤ 57 then some (c.toNat - 48) else none

/-- Digit run of the Python int() parse after the first digit: a single underscore
is allowed only between two digits. -/
def pyDigitsCore : Nat → Str → Option Nat
  | acc, [] => some acc
  | acc, '_' :: c :: rest =>
    match digitVal c with
    | some d => pyDigitsCore (10 * acc + d) rest
    | none => none
  | acc, c :: rest =>
    match digitVal c with
    | some d => pyDigitsCore (10 * acc + d) rest
    | none => none

/-- Digit part of the Python int() parse: nonempty, must start with a digit. -/
def pyParseIntDigits : Str → Option Nat
  | [] => none
  | c :: rest =>
    match digitVal c with
    | some d => pyDigitsCore d rest
    | none => none

/-- The Python int() conversion of a string (base 10, ASCII): strip whitespace, optional
sign, then digits; none models the raised ValueError. -/
def pyParseInt (s : Str) : Option Int :=
  match pyStrip s with
  | '+' :: rest => (pyParseIntDigits rest).map (fun n => (n : Int))
  | '-' :: rest => (pyParseIntDigits rest).map (fun n => -(n : Int))
  | t => (pyParseIntDigits t).map (fun n => (n : Int))

/-- The clicks form field as read by start_game:
int(request.form.get(clicks-key, 3)) — an absent field defaults to 3, a
present field goes through int(). -/
def parseClicksField : Option Str → Option Int
  | none => some 3
  | some cf => pyParseInt cf

/-- Outcome of the start_game route, one constructor per flash-and-redirect
branch plus the success redirect. -/
inductive StartResult where
  | invalidClickCount : StartResult
  | invalidArticleReference : StartResult
  | directoryUnavailable : StartResult
  | started : StartResult
deriving DecidableEq

/-- Embedding of the start_game route (src/app.py): strip the url field,
parse and range-check the clicks field (1 to 10, errors leave the session
untouched), then resolve the start page from the URL or from the random
oracle, and on success overwrite the session with a fresh game_state. -/
def start_game (d : Directory) (store : Option GameState)
    (urlField clicksField : Option Str) : StartResult × Option GameState :=
  match parseClicksField clicksField with
  | none => (.invalidClickCount, store)
  | some clicks =>
    if 1 ≤ clicks ∧ clicks ≤ 10 then
      if (pyStrip (urlField.getD [])).isEmpty then
        match d.random with
        | none => (.directoryUnavailable, store)
        | some sp => (.started, some ⟨sp, 0, clicks, [sp], sp⟩)
      else
        match validate_wikipedia_url d.norm (pyStrip (urlField.getD [])) with
        | none => (.invalidArticleReference, store)
        | some title => (.started, some ⟨title, 0, clicks, [title], title⟩)
    else (.invalidClickCount, store)

/-- Rendered outcome of the game route: the no-active-game redirect, the
result.html render (with its no_links flag), or the game.html render. -/
inductive GameView where
  | noSession : GameView
  | result (current_page : Str) (views : Option Int) (path : List Str)
      (clicks_used max_clicks : Int) (categories : List Str)
      (no_links : Bool) : GameView
  | inProgress (current_page : Str) (extract : Str) (links : List Str)
      (clicks_used clicks_remaining max_clicks : Int) (path : List Str)
      (total_links : Nat) : GameView
deriving DecidableEq

/-- View computed by the game route for an existing session: result.html
when clicks_used has reached max_clicks, result.html with no_links when the
fetched link list is empty, otherwise game.html with the links. -/
def gameViewBody (d : Directory) (gs : GameState) : GameView :=
  if gs.max_clicks ≤ gs.clicks_used then
    .result gs.current_page (d.pageviews gs.current_page) gs.path
      gs.clicks_used gs.max_clicks ((d.categories gs.current_page).take 5)
      false
  else
    let links := get_hyperlinks_from_page d.fetchLinks gs.current_page
    if links.isEmpty then
      .result gs.current_page (d.pageviews gs.current_page) gs.path
        gs.clicks_used gs.max_clicks ((d.categories gs.current_page).take 5)
        true
    else
      .inProgress gs.current_page (d.extract gs.current_page) links
        gs.clicks_used (gs.max_clicks - gs.clicks_used) gs.max_clicks
        gs.path links.length

/-- Embedding of the game route (src/app.py).  The route only reads the
session: the returned store is the one it was given, since the source never
assigns session game_state on this path. -/
def gameView (d : Directory) (store : Option GameState) :
    GameView × Option GameState :=
  match store with
  | none => (.noSession, none)
  | some gs => (gameViewBody d gs, store)

/-- Outcome of the navigate route. -/
inductive NavigateResult where
  | noSession : NavigateResult
  | emptySelection : NavigateResult
  | moved : NavigateResult
deriving DecidableEq

/-- Embedding of the navigate route (src/app.py): missing session and
falsy next_page (absent field or empty string) redirect without touching
state; otherwise the route unconditionally sets current_page, increments
clicks_used and appends to path — the source performs no completion check
and no membership check of next_page against the offered links. -/
def navigate (store : Option GameState) (next_page : Option Str) :
    NavigateResult × Option GameState :=
  match store with
  | none => (.noSession, none)
  | some gs =>
    match next_page with
    | none => (.emptySelection, store)
    | some np =>
      if np.isEmpty then (.emptySelection, store)
      else
        (.moved, some ⟨np, gs.clicks_used + 1, gs.max_clicks,
                       gs.path ++ [np], gs.start_page⟩)

/-- Embedding of the reset_game route (src/app.py): session.pop with a
default never raises, so the route is total and always leaves no session. -/
def reset_game (_store : Option GameState) : Option GameState := none

/-- Derived session status per the data model: COMPLETED exactly when
clicks_used has reached max_clicks or the current article has zero
outgoing links as fetched right now. -/
def statusCompleted (d : Directory) (gs : GameState) : Bool :=
  decide (gs.max_clicks ≤ gs.clicks_used) ||
    (get_hyperlinks_from_page d.fetchLinks gs.current_page).isEmpty

/-- Sequence of navigate requests, one per chosen article. -/
def navigateAll : Option GameState → List Str → Option GameState
  | st, [] => st
  | st, np :: rest => navigateAll (navigate st (some np)).2 rest

/-- One client request against the session store: any start_game, navigate,
game view, reset_game or index request, each with its own form inputs and
its own directory-oracle answers. -/
inductive Step : Option GameState → Option GameState → Prop
  | start (d : Directory) (st : Option GameState) (u cf : Option Str) :
      Step st (start_game d st u cf).2
  | nav (st : Option GameState) (np : Option Str) :
      Step st (navigate st np).2
  | view (d : Directory) (st : Option GameState) :
      Step st (gameView d st).2
  | reset (st : Option GameState) : Step st (reset_game st)
  | index (st : Option GameState) : Step st none

/-- Stores reachable from a fresh browser (no session) by any request
sequence. -/
def Reachable (st : Option GameState) : Prop :=
  Relation.ReflTransGen Step none st

/-- One client request, with navigate restricted to sessions that still
have clicks left (the guard the served UI respects: game.html is only
rendered, and so a next_page form only exists, while clicks_used is below
max_clicks). -/
inductive GStep : Option GameState → Option GameState → Prop
  | start (d : Directory) (st : Option GameState) (u cf : Option Str) :
      GStep st (start_game d st u cf).2
  | nav (st : Option GameState) (np : Option Str)
      (h : ∀ gs, st = some gs → gs.clicks_used < gs.max_clicks) :
      GStep st (navigate st np).2
  | view (d : Directory) (st : Option GameState) :
      GStep st (gameView d st).2
  | reset (st : Option GameState) : GStep st (reset_game st)
  | index (st : Option GameState) : GStep st none

/-- Stores reachable from a fresh browser when navigation only happens
from sessions with clicks remaining. -/
def GReachable (st : Option GameState) : Prop :=
  Relation.ReflTransGen GStep none st

/-- Replace spaces by underscores: the inverse direction of the title
canonicalization done by the source, used to state the URL-variant round trip. -/
def spacesToUnderscores (s : Str) : Str :=
  s.map (fun c => if c = ' ' then '_' else c)

/-- Uppercase hexadecimal digit character of a value below 16. -/
def toHexDigit (n : Nat) : Char :=
  if n < 10 then Char.ofNat (48 + n) else Char.ofNat (55 + n)

/-- Percent escape of one character (ASCII range). -/
def pctEncodeChar (c : Char) : Str :=
  ['%', toHexDigit (c.toNat / 16), toHexDigit (c.toNat % 16)]

/-- Fully percent-encoded form of a string, every character escaped. -/
def pctEncode : Str → Str
  | [] => []
  | c :: cs => pctEncodeChar c ++ pctEncode cs

/-- Concrete article title used by the witnesses. -/
def dogT : Str := ['D', 'o', 'g']

/-- Second concrete article title used by the witnesses. -/
def catT : Str := ['C', 'a', 't']

/-- Concrete two-word article title, exercising the space variants. -/
def dogParkT : Str := ['D', 'o', 'g', ' ', 'p', 'a', 'r', 'k']

/-- Oracle that accepts every title unchanged, with a fixed random article
and one-link pages: the directory used by the witnesses. -/
def dirW : Directory :=
  ⟨fun s => some s, some dogT, fun _ => .links [catT],
   fun _ => none, fun _ => [], fun _ => []⟩

/-- Directory whose links query always raises: the failing-fetch oracle of
the witnesses. -/
def dirFail : Directory :=
  ⟨fun s => some s, some dogT, fun _ => .failure,
   fun _ => none, fun _ => [], fun _ => []⟩

/-- Directory whose links query always answers an empty link list. -/
def dirEmpty : Directory :=
  ⟨fun s => some s, some dogT, fun _ => .links [],
   fun _ => none, fun _ => [], fun _ => []⟩

/-- Directory with no links on Dog park but links on every other page. -/
def dirMixed : Directory :=
  ⟨fun s => some s, some dogT,
   fun p => if p = dogParkT then .links [] else .links [catT],
   fun _ => none, fun _ => [], fun _ => []⟩

/-! Helper lemmas about the embedded operations. -/

/-- Successful navigate in closed form: with a session present and a
non-blank next_page, the route answers moved and rewrites the session. -/
theorem navigate_moved (gs : GameState) (np : Str) (hnp : np ≠ []) :
    navigate (some gs) (some np) =
      (.moved, some ⟨np, gs.clicks_used + 1, gs.max_clicks,
                     gs.path ++ [np], gs.start_page⟩) := by
  have he : np.isEmpty = false := by
    cases np with
    | nil => exact absurd rfl hnp
    | cons c l => rfl
  simp [navigate, he]

/-- Inversion of a successful navigate: the new session is exactly the
update performed by the route. -/
theorem navigate_moved_inv (gs : GameState) (np : Str) (gs2 : GameState)
    (h : navigate (some gs) (some np) = (.moved, some gs2)) :
    gs2 = ⟨np, gs.clicks_used + 1, gs.max_clicks,
           gs.path ++ [np], gs.start_page⟩ := by
  by_cases he : np.isEmpty
  · simp [navigate, he] at h
  · simp [navigate, he] at h
    exact h.symm

/-- The game route never writes the session store. -/
theorem gameView_snd (d : Directory) (st : Option GameState) :
    (gameView d st).2 = st := by
  cases st <;> rfl

/-- Case split on the store written by start_game: either the session is
untouched (an error branch) or a fresh session with zero clicks, a
singleton path and a validated click bound replaces it. -/
theorem start_game_store_cases (d : Directory) (st : Option GameState)
    (u cf : Option Str) :
    (start_game d st u cf).2 = st ∨
      ∃ sp mc, 1 ≤ mc ∧ mc ≤ 10 ∧
        (start_game d st u cf).2 = some (⟨sp, 0, mc, [sp], sp⟩ : GameState) := by
  unfold start_game
  split
  · exact Or.inl rfl
  next clicks _ =>
    split
    next hc =>
      split
      · split
        · exact Or.inl rfl
        next sp _ => exact Or.inr ⟨sp, clicks, hc.1, hc.2, rfl⟩
      · split
        · exact Or.inl rfl
        next title _ => exact Or.inr ⟨title, clicks, hc.1, hc.2, rfl⟩
    next hc => exact Or.inl rfl

/-- Inversion of a successful start_game: the stored session is fresh,
with zero clicks, a singleton path equal to the start page, and a click
bound inside the validated range. -/
theorem start_game_started (d : Directory) (store : Option GameState)
    (u cf : Option Str) (st2 : Option GameState)
    (h : start_game d store u cf = (.started, st2)) :
    ∃ sp mc, 1 ≤ mc ∧ mc ≤ 10 ∧
      st2 = some (⟨sp, 0, mc, [sp], sp⟩ : GameState) := by
  unfold start_game at h
  split at h
  · simp at h
  next clicks _ =>
    split at h
    next hc =>
      split at h
      · split at h
        · simp at h
        next sp _ =>
          simp only [Prod.mk.injEq] at h
          exact ⟨sp, clicks, hc.1, hc.2, h.2.symm⟩
      · split at h
        · simp at h
        next title _ =>
          simp only [Prod.mk.injEq] at h
          exact ⟨title, clicks, hc.1, hc.2, h.2.symm⟩
    next hc => simp at h

/-- One request preserves the path invariant: the stored path starts at
start_page and has length clicks_used plus one. -/
theorem step_path_inv (st st2 : Option GameState) (hs : Step st st2)
    (ih : ∀ gs : GameState, st = some gs →
      gs.path.head? = some gs.start_page ∧
      (gs.path.length : Int) = gs.clicks_used + 1) :
    ∀ gs : GameState, st2 = some gs →
      gs.path.head? = some gs.start_page ∧
      (gs.path.length : Int) = gs.clicks_used + 1 := by
  cases hs with
  | start d st u cf =>
    rcases start_game_store_cases d st u cf with hsame | ⟨sp, mc, _, _, heq⟩
    · rw [hsame]; exact ih
    · rw [heq]
      intro gs hgs
      cases hgs
      exact ⟨rfl, by norm_num⟩
  | nav st np =>
    cases st with
    | none => intro gs hgs; simp [navigate] at hgs
    | some gs0 =>
      cases np with
      | none => exact ih
      | some np' =>
        by_cases he : np'.isEmpty
        · simp only [navigate, he, if_true]
          exact ih
        · rw [navigate_moved gs0 np' (by simpa using he)]
          intro gs hgs
          cases hgs
          obtain ⟨hhead, hlen⟩ := ih gs0 rfl
          have hne : gs0.path ≠ [] := by
            intro hnil; rw [hnil] at hhead; cases hhead
          constructor
          · simp only
            rw [List.head?_append_of_ne_nil gs0.path hne]
            exact hhead
          · simp only [List.length_append, List.length_cons,
              List.length_nil]
            push_cast
            omega
  | view d st =>
    rw [gameView_snd]; exact ih
  | reset st => intro gs hgs; cases hgs
  | index st => intro gs hgs; cases hgs

/-- One click-guarded request preserves the click bound. -/
theorem gstep_click_bound (st st2 : Option GameState) (hs : GStep st st2)
    (ih : ∀ gs : GameState, st = some gs → gs.clicks_used ≤ gs.max_clicks) :
    ∀ gs : GameState, st2 = some gs → gs.clicks_used ≤ gs.max_clicks := by
  cases hs with
  | start d st u cf =>
    rcases start_game_store_cases d st u cf with hsame | ⟨sp, mc, h1, _, heq⟩
    · rw [hsame]; exact ih
    · rw [heq]
      intro gs hgs
      cases hgs
      simp only
      omega
  | nav st np hg =>
    cases st with
    | none => intro gs hgs; simp [navigate] at hgs
    | some gs0 =>
      cases np with
      | none => exact ih
      | some np' =>
        by_cases he : np'.isEmpty
        · simp only [navigate, he, if_true]
          exact ih
        · rw [navigate_moved gs0 np' (by simpa using he)]
          intro gs hgs
          cases hgs
          have := hg gs0 rfl
          simp only
          omega
  | view d st =>
    rw [gameView_snd]; exact ih
  | reset st => intro gs hgs; cases hgs
  | index st => intro gs hgs; cases hgs

/-! Claim theorems. -/

/-- Claim C1, counterexample: on the COMPLETED session with one click used
out of one allowed, a navigate with a non-blank chosen article does not
fail — it answers moved and changes current_page, clicks_used and path,
so the claimed SessionAlreadyCompleted failure and the claimed immutability
are both false in the code. -/
theorem c1_counterexample :
    (⟨dogT, 1, 1, [dogT, catT], dogT⟩ : GameState).max_clicks ≤
      (⟨dogT, 1, 1, [dogT, catT], dogT⟩ : GameState).clicks_used ∧
    navigate (some ⟨dogT, 1, 1, [dogT, catT], dogT⟩) (some catT) =
      (.moved, some ⟨catT, 2, 1, [dogT, catT, catT], dogT⟩) ∧
    (⟨catT, 2, 1, [dogT, catT, catT], dogT⟩ : GameState) ≠
      (⟨dogT, 1, 1, [dogT, catT], dogT⟩ : GameState) := by
  decide

/-- Claim C1 (amended): the navigate route performs no completion check, so
on a COMPLETED session (clicks_used at max_clicks) a navigate with a
non-blank chosen article succeeds with moved and mutates current_page,
clicks_used and path exactly as on an in-progress session. -/
theorem c1_completed_navigate_mutates (gs : GameState) (np : Str)
    (_hcomp : gs.max_clicks ≤ gs.clicks_used) (hnp : np ≠ []) :
    navigate (some gs) (some np) =
      (.moved, some ⟨np, gs.clicks_used + 1, gs.max_clicks,
                     gs.path ++ [np], gs.start_page⟩) :=
  navigate_moved gs np hnp

/-- Witness for the amended C1 at a concrete completed session. -/
theorem c1_witness :
    navigate (some ⟨dogT, 1, 1, [dogT, catT], dogT⟩) (some catT) =
      (.moved, some ⟨catT, 2, 1, [dogT, catT, catT], dogT⟩) := by
  have h := c1_completed_navigate_mutates ⟨dogT, 1, 1, [dogT, catT], dogT⟩
    catT (by decide) (by decide)
  simpa using h

/-- Claim C2, counterexample: viewing an IN_PROGRESS session whose current
article has an empty fetched link set returns the terminal view but stores
nothing — the session is unchanged — and the session is not terminal from
then on: a subsequent navigate succeeds and the next view is in-progress
again.  So the claimed stored transition to COMPLETED does not happen. -/
theorem c2_counterexample :
    gameView dirMixed (some ⟨dogParkT, 0, 3, [dogParkT], dogParkT⟩) =
      (.result dogParkT none [dogParkT] 0 3 [] true,
       some ⟨dogParkT, 0, 3, [dogParkT], dogParkT⟩) ∧
    navigate (some ⟨dogParkT, 0, 3, [dogParkT], dogParkT⟩) (some dogT) =
      (.moved, some ⟨dogT, 1, 3, [dogParkT, dogT], dogParkT⟩) ∧
    (gameView dirMixed (some ⟨dogT, 1, 3, [dogParkT, dogT], dogParkT⟩)).1 =
      .inProgress dogT [] [catT] 1 2 3 [dogParkT, dogT] 1 := by
  decide

/-- Claim C2 (amended): when the game view runs on an IN_PROGRESS session
and the fetched link set of the current article is empty, it returns the
terminal no-links view, but performs no store mutation: the session it
leaves behind is exactly the one it read. -/
theorem c2_empty_links_view_stateless (d : Directory) (gs : GameState)
    (hip : gs.clicks_used < gs.max_clicks)
    (hempty : get_hyperlinks_from_page d.fetchLinks gs.current_page = []) :
    gameView d (some gs) =
      (.result gs.current_page (d.pageviews gs.current_page) gs.path
        gs.clicks_used gs.max_clicks ((d.categories gs.current_page).take 5)
        true, some gs) := by
  simp [gameView, gameViewBody, hempty, not_le.mpr hip]

/-- Witness for the amended C2 at a concrete link-less article. -/
theorem c2_witness :
    gameView dirMixed (some ⟨dogParkT, 0, 3, [dogParkT], dogParkT⟩) =
      (.result dogParkT none [dogParkT] 0 3 [] true,
       some ⟨dogParkT, 0, 3, [dogParkT], dogParkT⟩) := by
  have h := c2_empty_links_view_stateless dirMixed
    ⟨dogParkT, 0, 3, [dogParkT], dogParkT⟩ (by decide) (by decide)
  simpa using h

/-- Claim C6: navigate trusts the posted chosen article: on an existing
IN_PROGRESS session, any non-blank value succeeds — no check against any
offered link set appears anywhere in the hypotheses — and current_page is
set to that value. -/
theorem c6_navigate_unvalidated (d : Directory) (gs : GameState) (np : Str)
    (_hip : statusCompleted d gs = false) (hnp : np ≠ []) :
    navigate (some gs) (some np) =
      (.moved, some ⟨np, gs.clicks_used + 1, gs.max_clicks,
                     gs.path ++ [np], gs.start_page⟩) :=
  navigate_moved gs np hnp

/-- Witness for C6: a session with clicks left and a one-element link set
navigates to an arbitrary article not in that link set. -/
theorem c6_witness :
    navigate (some ⟨dogT, 0, 3, [dogT], dogT⟩) (some dogParkT) =
      (.moved, some ⟨dogParkT, 1, 3, [dogT, dogParkT], dogT⟩) := by
  have h := c6_navigate_unvalidated dirW ⟨dogT, 0, 3, [dogT], dogT⟩
    dogParkT (by decide) (by decide)
  simpa using h

/-- Claim C7: reset always succeeds whatever the prior state (the function
is total and leaves no session), a second reset is a no-op that also
succeeds, and the view after a reset is the no-active-session redirect. -/
theorem c7_reset_idempotent (d : Directory) (st : Option GameState) :
    reset_game st = none ∧
    reset_game (reset_game st) = reset_game st ∧
    gameView d (reset_game st) = (.noSession, none) :=
  ⟨rfl, rfl, rfl⟩

/-- Claim C8: when the posted clicks field does not parse as an integer in
the range 1 to 10 — int() raises, or the value is out of range — start_game
fails with the invalid-click-count flash and the session store is exactly
the prior one. -/
theorem c8_invalid_click_count (d : Directory) (prior : Option GameState)
    (urlField : Option Str) (cf : Str)
    (hbad : ∀ c : Int, pyParseInt cf = some c → ¬(1 ≤ c ∧ c ≤ 10)) :
    start_game d prior urlField (some cf) = (.invalidClickCount, prior) := by
  unfold start_game
  cases hp : parseClicksField (some cf) with
  | none => rfl
  | some c => simp only [if_neg (hbad c hp)]

/-- Witness for C8 at the out-of-range input 0. -/
theorem c8_witness :
    start_game dirW none none (some ['0']) = (.invalidClickCount, none) :=
  c8_invalid_click_count dirW none none ['0']
    (fun c hc => by
      have h0 : pyParseInt ['0'] = some 0 := by decide
      rw [h0] at hc
      cases hc
      decide)

/-- Claim C10: a failed links fetch is swallowed into the empty list, so
the game view on an IN_PROGRESS session renders the same terminal no-links
view whether the fetch raised or the article genuinely has no links. -/
theorem c10_fetch_failure_indistinguishable (d1 d2 : Directory)
    (gs : GameState)
    (hfail : d1.fetchLinks gs.current_page = .failure)
    (hempty : d2.fetchLinks gs.current_page = .links [])
    (hpv : d1.pageviews = d2.pageviews)
    (hcat : d1.categories = d2.categories)
    (_hex : d1.extract = d2.extract)
    (hip : gs.clicks_used < gs.max_clicks) :
    get_hyperlinks_from_page d1.fetchLinks gs.current_page = [] ∧
    gameView d1 (some gs) = gameView d2 (some gs) ∧
    (gameView d1 (some gs)).1 =
      .result gs.current_page (d1.pageviews gs.current_page) gs.path
        gs.clicks_used gs.max_clicks
        ((d1.categories gs.current_page).take 5) true := by
  have h1 : get_hyperlinks_from_page d1.fetchLinks gs.current_page = [] := by
    unfold get_hyperlinks_from_page
    rw [hfail]
  have h2 : get_hyperlinks_from_page d2.fetchLinks gs.current_page = [] := by
    unfold get_hyperlinks_from_page
    rw [hempty]
    rfl
  refine ⟨h1, ?_, ?_⟩ <;>
    simp [gameView, gameViewBody, h1, h2, hpv, hcat, not_le.mpr hip]

/-- Witness for C10: the always-raising directory and the no-links
directory produce the same terminal view of the same session. -/
theorem c10_witness :
    get_hyperlinks_from_page dirFail.fetchLinks dogT = [] ∧
    gameView dirFail (some ⟨dogT, 0, 3, [dogT], dogT⟩) =
      gameView dirEmpty (some ⟨dogT, 0, 3, [dogT], dogT⟩) ∧
    (gameView dirFail (some ⟨dogT, 0, 3, [dogT], dogT⟩)).1 =
      .result dogT none [dogT] 0 3 [] true := by
  have h := c10_fetch_failure_indistinguishable dirFail dirEmpty
    ⟨dogT, 0, 3, [dogT], dogT⟩ rfl rfl rfl rfl rfl (by decide)
  simpa using h

/-- Claim C3, counterexample: the state with two clicks used out of one
allowed is reachable from a fresh browser — start with max_clicks one,
then navigate twice (the second navigate hits a completed session but the
route does not check) — so clicks_used is not bounded by max_clicks over
all reachable states. -/
theorem c3_counterexample :
    Reachable (some ⟨dogT, 2, 1, [dogT, catT, dogT], dogT⟩) ∧
    (⟨dogT, 2, 1, [dogT, catT, dogT], dogT⟩ : GameState).max_clicks <
      (⟨dogT, 2, 1, [dogT, catT, dogT], dogT⟩ : GameState).clicks_used := by
  constructor
  · have h1 : Step none (some (⟨dogT, 0, 1, [dogT], dogT⟩ : GameState)) :=
      Step.start dirW none none (some ['1'])
    have h2 : Step (some (⟨dogT, 0, 1, [dogT], dogT⟩ : GameState))
        (some (⟨catT, 1, 1, [dogT, catT], dogT⟩ : GameState)) :=
      Step.nav (some ⟨dogT, 0, 1, [dogT], dogT⟩) (some catT)
    have h3 : Step (some (⟨catT, 1, 1, [dogT, catT], dogT⟩ : GameState))
        (some (⟨dogT, 2, 1, [dogT, catT, dogT], dogT⟩ : GameState)) :=
      Step.nav (some ⟨catT, 1, 1, [dogT, catT], dogT⟩) (some dogT)
    exact Relation.ReflTransGen.tail
      (Relation.ReflTransGen.tail (Relation.ReflTransGen.single h1) h2) h3
  · decide

/-- Claim C3 (amended): clicks_used stays at most max_clicks across every
request sequence in which navigate is only invoked on sessions that still
have clicks left — the only sessions the UI serves a navigation form for.
Without that guard a navigate on a completed session exceeds the bound. -/
theorem c3_click_bound_guarded (st : Option GameState) (h : GReachable st) :
    ∀ gs : GameState, st = some gs → gs.clicks_used ≤ gs.max_clicks := by
  induction h with
  | refl => intro gs hgs; cases hgs
  | tail _ hbc ih => exact gstep_click_bound _ _ hbc ih

/-- Witness for the amended C3 at a freshly started session. -/
theorem c3_witness :
    (⟨dogT, 0, 3, [dogT], dogT⟩ : GameState).clicks_used ≤
      (⟨dogT, 0, 3, [dogT], dogT⟩ : GameState).max_clicks := by
  have hstep : GStep none (some (⟨dogT, 0, 3, [dogT], dogT⟩ : GameState)) :=
    GStep.start dirW none none none
  exact c3_click_bound_guarded _
    (Relation.ReflTransGen.single hstep) _ rfl

/-- Claim C4: over every store reachable from a fresh browser, an existing
session has a non-empty path headed by start_page whose length is
clicks_used plus one; moreover every successful navigate appends exactly
one article and increments clicks_used by exactly one (so it preserves the
invariant), and start establishes it with zero clicks and the singleton
path. -/
theorem c4_path_invariant (st : Option GameState) (h : Reachable st)
    (gs : GameState) (hst : st = some gs) :
    gs.path ≠ [] ∧
    gs.path.head? = some gs.start_page ∧
    (gs.path.length : Int) = gs.clicks_used + 1 ∧
    (∀ (np : Str) (gs2 : GameState),
      navigate (some gs) (some np) = (.moved, some gs2) →
      gs2.path = gs.path ++ [np] ∧
      gs2.clicks_used = gs.clicks_used + 1 ∧
      gs2.start_page = gs.start_page) ∧
    (∀ (d : Directory) (prior st2 : Option GameState) (u cf : Option Str)
      (s0 : GameState),
      start_game d prior u cf = (.started, st2) → st2 = some s0 →
      s0.clicks_used = 0 ∧ s0.path = [s0.start_page]) := by
  have hmain : ∀ st2 : Option GameState, Reachable st2 →
      ∀ gs2 : GameState, st2 = some gs2 →
        gs2.path.head? = some gs2.start_page ∧
        (gs2.path.length : Int) = gs2.clicks_used + 1 := by
    intro st2 h2
    induction h2 with
    | refl => intro gs2 hgs; cases hgs
    | tail _ hbc ih => exact step_path_inv _ _ hbc ih
  obtain ⟨hhead, hlen⟩ := hmain st h gs hst
  refine ⟨?_, hhead, hlen, ?_, ?_⟩
  · intro hnil
    rw [hnil] at hhead
    cases hhead
  · intro np gs2 hnav
    have := navigate_moved_inv gs np gs2 hnav
    cases this
    exact ⟨rfl, rfl, rfl⟩
  · intro d prior st2 u cf s0 hs hst2
    obtain ⟨sp, mc, _, _, heq⟩ := start_game_started d prior u cf st2 hs
    rw [heq] at hst2
    cases hst2
    exact ⟨rfl, rfl⟩

/-- Witness for C4 at a concrete reachable session. -/
theorem c4_witness :
    ([dogT] : List Str) ≠ [] ∧
    ([dogT] : List Str).head? = some dogT ∧
    (([dogT] : List Str).length : Int) = 0 + 1 := by
  have hstep : Step none (some (⟨dogT, 0, 3, [dogT], dogT⟩ : GameState)) :=
    Step.start dirW none none none
  have h := c4_path_invariant _ (Relation.ReflTransGen.single hstep) _ rfl
  exact ⟨h.1, h.2.1, h.2.2.1⟩

/-- Closed form of a run of successful navigates: with every chosen
article non-blank, the run ends in a session whose click count and path
length grew by the number of navigations and whose click bound is
untouched. -/
theorem navigateAll_counts (choices : List Str) :
    ∀ gs : GameState, (∀ np ∈ choices, np ≠ []) →
      ∃ gs2 : GameState, navigateAll (some gs) choices = some gs2 ∧
        gs2.clicks_used = gs.clicks_used + choices.length ∧
        gs2.path.length = gs.path.length + choices.length ∧
        gs2.max_clicks = gs.max_clicks := by
  induction choices with
  | nil =>
    intro gs _
    exact ⟨gs, rfl, by simp, by simp, rfl⟩
  | cons np rest ih =>
    intro gs hnb
    have hnp : np ≠ [] := hnb np (List.mem_cons_self np rest)
    obtain ⟨gs2, h1, h2, h3, h4⟩ :=
      ih ⟨np, gs.clicks_used + 1, gs.max_clicks, gs.path ++ [np],
          gs.start_page⟩
        (fun x hx => hnb x (List.mem_cons_of_mem np hx))
    refine ⟨gs2, ?_, ?_, ?_, h4⟩
    · rw [show navigateAll (some gs) (np :: rest) =
          navigateAll (navigate (some gs) (some np)).2 rest from rfl,
        navigate_moved gs np hnp]
      exact h1
    · rw [h2]
      simp only [List.length_cons]
      push_cast
      ring
    · rw [h3]
      simp only [List.length_append, List.length_cons, List.length_nil]
      omega

/-- Claim C5: from any session freshly created by a successful start_game,
a run of exactly max_clicks successful navigates (non-blank choices) ends
in a session whose derived status is COMPLETED under every directory and
whose path has max_clicks plus one entries. -/
theorem c5_clicks_exhaust_completes (d : Directory)
    (prior st2 : Option GameState) (u cf : Option Str) (s0 : GameState)
    (hstart : start_game d prior u cf = (.started, st2))
    (hs0 : st2 = some s0)
    (choices : List Str) (hnb : ∀ np ∈ choices, np ≠ [])
    (hlen : (choices.length : Int) = s0.max_clicks) :
    ∃ gs2 : GameState, navigateAll (some s0) choices = some gs2 ∧
      (∀ d2 : Directory, statusCompleted d2 gs2 = true) ∧
      (gs2.path.length : Int) = s0.max_clicks + 1 := by
  obtain ⟨sp, mc, hmc1, _, heq⟩ := start_game_started d prior u cf st2 hstart
  rw [heq] at hs0
  cases hs0
  obtain ⟨gs2, h1, h2, h3, h4⟩ := navigateAll_counts choices _ hnb
  have e1 : (⟨sp, 0, mc, [sp], sp⟩ : GameState).clicks_used = 0 := rfl
  have e2 : (⟨sp, 0, mc, [sp], sp⟩ : GameState).max_clicks = mc := rfl
  have e3 : (⟨sp, 0, mc, [sp], sp⟩ : GameState).path.length = 1 := rfl
  rw [e1, zero_add] at h2
  rw [e2] at h4 hlen
  rw [e3] at h3
  refine ⟨gs2, h1, ?_, ?_⟩
  · intro d2
    have hcomp : gs2.max_clicks ≤ gs2.clicks_used := by
      rw [h4, h2]
      omega
    simp [statusCompleted, hcomp]
  · rw [e2]
    omega

/-- Witness for C5: a fresh three-click session, three navigations, a
completed session with a four-entry path. -/
theorem c5_witness :
    ∃ gs2 : GameState,
      navigateAll (some ⟨dogT, 0, 3, [dogT], dogT⟩) [catT, dogT, catT] =
        some gs2 ∧
      (∀ d2 : Directory, statusCompleted d2 gs2 = true) ∧
      (gs2.path.length : Int) =
        (⟨dogT, 0, 3, [dogT], dogT⟩ : GameState).max_clicks + 1 := by
  have h := c5_clicks_exhaust_completes dirW none
    (some ⟨dogT, 0, 3, [dogT], dogT⟩) none none
    ⟨dogT, 0, 3, [dogT], dogT⟩ rfl rfl [catT, dogT, catT]
    (by intro np hnp; fin_cases hnp <;> decide) (by decide)
  exact h

/-- Hex digits produced by toHexDigit decode back to their value. -/
theorem hexVal_toHexDigit : ∀ n : Nat, n < 16 →
    hexDigitVal (toHexDigit n) = some n := by decide

/-- Hex digit characters are not special URL characters and not blank. -/
theorem toHexDigit_props : ∀ n : Nat, n < 16 →
    toHexDigit n ≠ '#' ∧ toHexDigit n ≠ '?' ∧
    (toHexDigit n).isWhitespace = false := by decide

/-- Unquote passes a non-escape head through unchanged. -/
theorem unquote_cons_of_ne (c : Char) (rest : Str) (h : c ≠ '%') :
    unquote (c :: rest) = c :: unquote rest := by
  rw [unquote.eq_def]
  split
  · next heq => exact absurd heq (List.cons_ne_nil c rest)
  · next heq => rw [List.cons.injEq] at heq; exact absurd heq.1 h
  · next heq =>
      injection heq with h1 h2
      subst h1
      subst h2
      rfl

/-- Unquote decodes one full percent escape of an ASCII character. -/
theorem unquote_pct_cons (c : Char) (hc : c.toNat < 128) (s : Str) :
    unquote (pctEncodeChar c ++ s) = c :: unquote s := by
  have h16 : c.toNat / 16 < 16 := by omega
  have hm : c.toNat % 16 < 16 := Nat.mod_lt _ (by norm_num)
  have h1 : hexDigitVal (toHexDigit (c.toNat / 16)) = some (c.toNat / 16) :=
    hexVal_toHexDigit _ h16
  have h2 : hexDigitVal (toHexDigit (c.toNat % 16)) = some (c.toNat % 16) :=
    hexVal_toHexDigit _ hm
  show unquote ('%' :: toHexDigit (c.toNat / 16) ::
      toHexDigit (c.toNat % 16) :: s) = c :: unquote s
  rw [unquote.eq_def]
  simp [h1, h2, Nat.div_add_mod, Char.ofNat_toNat]

/-- Unquote inverts the full percent encoding of an ASCII string. -/
theorem unquote_pctEncode (t : Str) (h : ∀ c ∈ t, c.toNat < 128) :
    unquote (pctEncode t) = t := by
  induction t with
  | nil => exact unquote.eq_1
  | cons c cs ih =>
    show unquote (pctEncodeChar c ++ pctEncode cs) = c :: cs
    rw [unquote_pct_cons c (h c (List.mem_cons_self c cs)) (pctEncode cs),
      ih (fun x hx => h x (List.mem_cons_of_mem c hx))]

/-- Unquote is the identity on strings without a percent sign. -/
theorem unquote_of_no_pct (t : Str) (h : ∀ c ∈ t, c ≠ '%') :
    unquote t = t := by
  induction t with
  | nil => exact unquote.eq_1
  | cons c cs ih =>
    rw [unquote_cons_of_ne c cs (h c (List.mem_cons_self c cs)),
      ih (fun x hx => h x (List.mem_cons_of_mem c hx))]

/-- The underscore-to-space replace is the identity on underscore-free
strings. -/
theorem underscoresToSpaces_of_no_underscore (t : Str)
    (h : ∀ c ∈ t, c ≠ '_') : underscoresToSpaces t = t := by
  induction t with
  | nil => rfl
  | cons c cs ih =>
    have h2 := ih (fun x hx => h x (List.mem_cons_of_mem c hx))
    show (if c = '_' then ' ' else c) :: underscoresToSpaces cs = c :: cs
    rw [if_neg (h c (List.mem_cons_self c cs)), h2]

/-- Replacing spaces by underscores and back is the identity on
underscore-free strings. -/
theorem underscores_spaces_roundtrip (t : Str) (h : ∀ c ∈ t, c ≠ '_') :
    underscoresToSpaces (spacesToUnderscores t) = t := by
  induction t with
  | nil => rfl
  | cons c cs ih =>
    have h2 := ih (fun x hx => h x (List.mem_cons_of_mem c hx))
    show (if (if c = ' ' then '_' else c) = '_' then ' '
        else (if c = ' ' then '_' else c)) ::
      underscoresToSpaces (spacesToUnderscores cs) = c :: cs
    rw [h2]
    by_cases hsp : c = ' '
    · rw [hsp]
      simp
    · rw [if_neg hsp, if_neg (h c (List.mem_cons_self c cs))]

/-- Characters of the space-to-underscore image are underscores or
original characters. -/
theorem spacesToUnderscores_mem (t : Str) (c : Char)
    (hc : c ∈ spacesToUnderscores t) : c = '_' ∨ c ∈ t := by
  unfold spacesToUnderscores at hc
  obtain ⟨x, hx, hfx⟩ := List.mem_map.mp hc
  by_cases hsp : x = ' '
  · left
    rw [← hfx, hsp]
    simp
  · right
    rw [← hfx, if_neg hsp]
    exact hx

/-- Characters of a percent encoding are the percent sign or hex digits. -/
theorem pctEncode_mem (t : Str) (h : ∀ c ∈ t, c.toNat < 128) (c : Char)
    (hc : c ∈ pctEncode t) :
    c = '%' ∨ ∃ n : Nat, n < 16 ∧ c = toHexDigit n := by
  induction t with
  | nil => cases hc
  | cons a as ih =>
    have ha : a.toNat < 128 := h a (List.mem_cons_self a as)
    rw [show pctEncode (a :: as) = pctEncodeChar a ++ pctEncode as from rfl]
      at hc
    rcases List.mem_append.mp hc with h1 | h2
    · simp only [pctEncodeChar, List.mem_cons, List.not_mem_nil,
        or_false] at h1
      rcases h1 with h1 | h1 | h1
      · exact Or.inl h1
      · exact Or.inr ⟨a.toNat / 16, by omega, h1⟩
      · exact Or.inr ⟨a.toNat % 16, Nat.mod_lt _ (by norm_num), h1⟩
    · exact ih (fun x hx => h x (List.mem_cons_of_mem a hx)) h2

/-- Percent encodings of nonempty strings are nonempty. -/
theorem pctEncode_ne_nil (t : Str) (h : t ≠ []) : pctEncode t ≠ [] := by
  cases t with
  | nil => exact absurd rfl h
  | cons c cs => exact fun hx => List.noConfusion hx

/-- Dropping a literal prefix from its own extension. -/
theorem dropPrefixQ_append (p s : Str) : dropPrefixQ p (p ++ s) = some s := by
  induction p with
  | nil => rfl
  | cons c cs ih => simp [dropPrefixQ, ih]

/-- The first Wikipedia pattern matches an https en URL and captures the
part after the wiki path. -/
theorem firstDrop_wiki (t : Str) :
    firstDrop wikiPrefixes (schemeHttps ++ hostEn ++ t) = some t := by
  have h := dropPrefixQ_append (schemeHttps ++ hostEn) t
  simp only [wikiPrefixes, firstDrop, h]

/-- Raw title extraction from a well-formed https en URL. -/
theorem extractRawTitle_wiki (t : Str) (hne : t ≠ [])
    (hch : ∀ c ∈ t, c ≠ '#' ∧ c ≠ '?') :
    extractRawTitle (schemeHttps ++ hostEn ++ t) = some t := by
  have htw : t.takeWhile (fun c => decide (c ≠ '#' ∧ c ≠ '?')) = t :=
    List.takeWhile_eq_self_iff.mpr
      (fun c hc => decide_eq_true (hch c hc))
  have hie : t.isEmpty = false := by
    cases t with
    | nil => exact absurd rfl hne
    | cons a l => rfl
  simp only [extractRawTitle, firstDrop_wiki t, htw, hie, Bool.false_eq_true,
    if_false]

/-- Python strip is the identity when neither end is whitespace. -/
theorem pyStrip_eq_self (s : Str)
    (h1 : ∀ c, s.head? = some c → c.isWhitespace = false)
    (h2 : ∀ c, s.getLast? = some c → c.isWhitespace = false) :
    pyStrip s = s := by
  unfold pyStrip
  have e1 : s.dropWhile Char.isWhitespace = s := by
    cases s with
    | nil => rfl
    | cons a l =>
      rw [List.dropWhile_cons, h1 a rfl]
      simp
  rw [e1]
  have e2 : s.reverse.dropWhile Char.isWhitespace = s.reverse := by
    cases hr : s.reverse with
    | nil => rfl
    | cons b m =>
      have hb : s.getLast? = some b := by
        rw [← List.head?_reverse, hr]
        rfl
      rw [List.dropWhile_cons, h2 b hb]
      simp
  rw [e2, List.reverse_reverse]

/-- Claim C9: a valid https en-Wikipedia article URL resolves through
validate_wikipedia_url to the API-canonicalized form of the title embedded
in the URL, and the plain, underscore-for-space and fully percent-encoded
variants of the same title all resolve to the same canonical identifier;
start_game on such a URL stores that canonical identifier as the
start_page of the session. -/
theorem c9_url_canonicalization (norm : Str → Option Str) (t : Str)
    (hne : t ≠ [])
    (hch : ∀ c ∈ t, c.toNat < 128 ∧ c ≠ '_' ∧ c ≠ '%' ∧ c ≠ '#' ∧ c ≠ '?')
    (hlast : ∀ c, t.getLast? = some c → c.isWhitespace = false) :
    validate_wikipedia_url norm (schemeHttps ++ hostEn ++ t) = norm t ∧
    validate_wikipedia_url norm
      (schemeHttps ++ hostEn ++ spacesToUnderscores t) = norm t ∧
    validate_wikipedia_url norm
      (schemeHttps ++ hostEn ++ pctEncode t) = norm t ∧
    (∀ (d : Directory) (prior : Option GameState) (ct : Str),
      d.norm = norm → norm t = some ct →
      start_game d prior (some (schemeHttps ++ hostEn ++ t)) none =
        (.started, some ⟨ct, 0, 3, [ct], ct⟩)) := by
  have h127 : ∀ c ∈ t, c.toNat < 128 := fun c hc => (hch c hc).1
  have hund : ∀ c ∈ t, c ≠ '_' := fun c hc => (hch c hc).2.1
  have hpct : ∀ c ∈ t, c ≠ '%' := fun c hc => (hch c hc).2.2.1
  have hhq : ∀ c ∈ t, c ≠ '#' ∧ c ≠ '?' :=
    fun c hc => ⟨(hch c hc).2.2.2.1, (hch c hc).2.2.2.2⟩
  have v1 : validate_wikipedia_url norm (schemeHttps ++ hostEn ++ t) =
      norm t := by
    simp only [validate_wikipedia_url, extractRawTitle_wiki t hne hhq,
      unquote_of_no_pct t hpct,
      underscoresToSpaces_of_no_underscore t hund]
  have v2 : validate_wikipedia_url norm
      (schemeHttps ++ hostEn ++ spacesToUnderscores t) = norm t := by
    have hs2ne : spacesToUnderscores t ≠ [] := by
      cases t with
      | nil => exact absurd rfl hne
      | cons a l => exact fun hx => List.noConfusion hx
    have hs2hq : ∀ c ∈ spacesToUnderscores t, c ≠ '#' ∧ c ≠ '?' := by
      intro c hc
      rcases spacesToUnderscores_mem t c hc with h | h
      · rw [h]
        exact ⟨by decide, by decide⟩
      · exact hhq c h
    have hs2pct : ∀ c ∈ spacesToUnderscores t, c ≠ '%' := by
      intro c hc
      rcases spacesToUnderscores_mem t c hc with h | h
      · rw [h]
        decide
      · exact hpct c h
    simp only [validate_wikipedia_url,
      extractRawTitle_wiki (spacesToUnderscores t) hs2ne hs2hq,
      unquote_of_no_pct _ hs2pct,
      underscores_spaces_roundtrip t hund]
  have v3 : validate_wikipedia_url norm
      (schemeHttps ++ hostEn ++ pctEncode t) = norm t := by
    have hs3hq : ∀ c ∈ pctEncode t, c ≠ '#' ∧ c ≠ '?' := by
      intro c hc
      rcases pctEncode_mem t h127 c hc with h | ⟨n, hn, he⟩
      · rw [h]
        exact ⟨by decide, by decide⟩
      · rw [he]
        exact ⟨(toHexDigit_props n hn).1, (toHexDigit_props n hn).2.1⟩
    simp only [validate_wikipedia_url,
      extractRawTitle_wiki (pctEncode t) (pctEncode_ne_nil t hne) hs3hq,
      unquote_pctEncode t h127,
      underscoresToSpaces_of_no_underscore t hund]
  refine ⟨v1, v2, v3, ?_⟩
  intro d prior ct hdn hct
  have hstrip : pyStrip (schemeHttps ++ hostEn ++ t) =
      schemeHttps ++ hostEn ++ t := by
    apply pyStrip_eq_self
    · intro c hc
      have hh : (schemeHttps ++ hostEn ++ t).head? = some 'h' := rfl
      rw [hh] at hc
      injection hc with h1
      rw [← h1]
      rfl
    · intro c hc
      rw [List.getLast?_append_of_ne_nil (schemeHttps ++ hostEn) hne] at hc
      exact hlast c hc
  have hie : (schemeHttps ++ hostEn ++ t).isEmpty = false := rfl
  unfold start_game
  simp only [parseClicksField, Option.getD_some, hstrip, hie,
    Bool.false_eq_true, if_false]
  rw [if_pos (by norm_num : (1 : Int) ≤ 3 ∧ (3 : Int) ≤ 10)]
  rw [hdn, v1, hct]

/-- Witness for C9 at the two-word title Dog park: the plain URL, the
underscore URL and the percent-encoded URL all resolve to the same
canonical title, and start_game stores it. -/
theorem c9_witness :
    validate_wikipedia_url some (schemeHttps ++ hostEn ++ dogParkT) =
      some dogParkT ∧
    validate_wikipedia_url some
      (schemeHttps ++ hostEn ++ spacesToUnderscores dogParkT) =
      some dogParkT ∧
    validate_wikipedia_url some
      (schemeHttps ++ hostEn ++ pctEncode dogParkT) = some dogParkT ∧
    start_game dirW none (some (schemeHttps ++ hostEn ++ dogParkT)) none =
      (.started, some ⟨dogParkT, 0, 3, [dogParkT], dogParkT⟩) := by
  obtain ⟨h1, h2, h3, h4⟩ := c9_url_canonicalization some dogParkT
    (by decide) (by decide) (by decide)
  exact ⟨h1, h2, h3, h4 dirW none dogParkT rfl rfl⟩

end ObscurityGame
